import Mathlib

/-!
Shallow embedding of the transaction storage layer of the
`effective_mobile_test` repository (a terminal personal finance tracker):

* `app/models.py` — the `Transaction` dataclass with `clone`, `to_dict`,
  `from_dict`; `TransactionType` enum.
* `app/utils.py` — `calculate_expenses`.
* `app/db/jsonfile.py` — `JsonFileDatabase`: `connect`, `read`, `write`,
  CRUD over an in-memory working set backed by a JSON file.

Python machine-level conventions used by the embedding:

* `float` amounts are modelled as `Rat` (exact arithmetic; the claims under
  study are about sign/aggregation structure, not rounding).
* `uuid.UUID` is a 128-bit value; `str(uuid)` is the canonical lowercase
  8-4-4-4-12 hex form and `uuid.UUID(s)` parses it (dashes stripped, 32 hex
  digits required), as in CPython's `uuid` module restricted to the
  canonical textual forms the repository produces.
* timezone-aware `datetime` is a record of calendar fields plus a UTC
  offset in whole minutes; `isoformat` / `fromisoformat` are implemented
  concretely below, restricted to the aware format `isoformat` emits.
* Python exceptions are represented by the spec's error taxonomy plus
  bookkeeping constructors for the `AttributeError` / `TypeError` paths the
  reference can hit on an unconnected engine.
-/

namespace Spec2Proof

/-! ## Decimal / hexadecimal digit codecs (for `str(uuid)` and ISO 8601) -/

/-- The character for digit `d` (decimal digits, then lowercase hex letters),
as produced by CPython's `%x`/decimal formatting. -/

def digitChar (d : Nat) : Char :=
  if d < 10 then Char.ofNat (48 + d) else Char.ofNat (87 + d)

/-- Numeric value of a digit character; accepts `0-9`, `a-f`, `A-F` the way
`int(s, 16)` does. -/
def digitVal (c : Char) : Option Nat :=
  if 48 ≤ c.toNat ∧ c.toNat ≤ 57 then some (c.toNat - 48)
  else if 97 ≤ c.toNat ∧ c.toNat ≤ 102 then some (c.toNat - 87)
  else if 65 ≤ c.toNat ∧ c.toNat ≤ 70 then some (c.toNat - 55)
  else none

/-- Fixed-width big-endian digit string of `n` in base `base`. -/
def toDigits (base w n : Nat) : List Char :=
  match w with
  | 0 => []
  | w + 1 => toDigits base w (n / base) ++ [digitChar (n % base)]

/-- Consume exactly `w` digit characters (base `base`) from the front,
accumulating into `acc`; returns the value and the rest of the input. -/
def parseFixed (base : Nat) : Nat → Nat → List Char → Option (Nat × List Char)
  | 0, acc, cs => some (acc, cs)
  | w + 1, acc, c :: cs =>
      match digitVal c with
      | some v => if v < base then parseFixed base w (acc * base + v) cs else none
      | none => none
  | _ + 1, _, [] => none

/-! ## UUID (`uuid.UUID`) -/

/-- A UUID is a 128-bit integer (`uuid.UUID.int`). -/

structure UUID where
  val : Nat
deriving DecidableEq, Repr

/-- `str(uuid)`: 32 lowercase hex digits in 8-4-4-4-12 groups. -/
def UUID.str (u : UUID) : String :=
  let cs := toDigits 16 32 u.val
  ⟨cs.take 8 ++ '-' :: (cs.drop 8).take 4 ++ '-' :: (cs.drop 12).take 4 ++
    '-' :: (cs.drop 16).take 4 ++ '-' :: cs.drop 20⟩

/-- `uuid.UUID(s)` on the canonical textual forms: dashes are stripped, the
remaining 32 characters are parsed as hex (`int(hex, 16)`), any other shape
raises `ValueError`. -/
def UUID.parse (s : String) : Option UUID :=
  let hex := s.data.filter (fun c => c ≠ '-')
  if hex.length = 32 then
    match parseFixed 16 32 0 hex with
    | some (n, []) => some ⟨n⟩
    | _ => none
  else none

/-! ## Timezone-aware `datetime` and its ISO 8601 codec -/

/-- A timezone-aware `datetime.datetime`: calendar fields plus a fixed UTC
offset in whole minutes (the shapes `datetime.timezone` produces). -/

structure Datetime where
  year : Nat
  month : Nat
  day : Nat
  hour : Nat
  minute : Nat
  second : Nat
  microsecond : Nat
  tzMinutes : Int
deriving DecidableEq, Repr

/-- The CPython `datetime` range invariants (plus whole-minute offsets
strictly below one day, as `datetime.timezone` requires). -/
def Datetime.Valid (d : Datetime) : Prop :=
  1 ≤ d.year ∧ d.year ≤ 9999 ∧ 1 ≤ d.month ∧ d.month ≤ 12 ∧
  1 ≤ d.day ∧ d.day ≤ 31 ∧ d.hour < 24 ∧ d.minute < 60 ∧ d.second < 60 ∧
  d.microsecond < 1000000 ∧ d.tzMinutes.natAbs < 1440

instance (d : Datetime) : Decidable d.Valid := by
  unfold Datetime.Valid
  infer_instance

/-- The `±HH:MM` suffix of `datetime.isoformat` for an aware value. -/
def Datetime.offsetChars (d : Datetime) : List Char :=
  (if 0 ≤ d.tzMinutes then '+' else '-') ::
    (toDigits 10 2 (d.tzMinutes.natAbs / 60) ++
      ':' :: toDigits 10 2 (d.tzMinutes.natAbs % 60))

/-- `datetime.isoformat()` (default `sep='T'`): fixed-width fields, the
`.ffffff` fraction omitted exactly when `microsecond == 0`, then the UTC
offset suffix. -/
def Datetime.isoformat (d : Datetime) : String :=
  ⟨toDigits 10 4 d.year ++ '-' :: toDigits 10 2 d.month ++
    '-' :: toDigits 10 2 d.day ++ 'T' :: toDigits 10 2 d.hour ++
    ':' :: toDigits 10 2 d.minute ++ ':' :: toDigits 10 2 d.second ++
    (if d.microsecond = 0 then [] else '.' :: toDigits 10 6 d.microsecond) ++
    d.offsetChars⟩

/-- Consume one expected literal character. -/
def expectChar (c : Char) : List Char → Option (List Char)
  | c' :: rest => if c' = c then some rest else none
  | [] => none

/-- The optional `.ffffff` fraction (as `fromisoformat` accepts on the
strings `isoformat` emits). -/
def parseFraction (cs : List Char) : Option (Nat × List Char) :=
  match cs with
  | '.' :: cs2 => parseFixed 10 6 0 cs2
  | _ => some (0, cs)

/-- An `HH:MM` offset magnitude, requiring the input to end there. -/
def parseOffsetMag (cs : List Char) : Option Nat :=
  match parseFixed 10 2 0 cs with
  | none => none
  | some (oh, cs) =>
  match expectChar ':' cs with
  | none => none
  | some cs =>
  match parseFixed 10 2 0 cs with
  | none => none
  | some (om, cs) => if cs = [] then some (oh * 60 + om) else none

/-- A signed `±HH:MM` offset, in minutes. -/
def parseOffset (cs : List Char) : Option Int :=
  match cs with
  | '+' :: cs2 => Option.map (fun m : Nat => (m : Int)) (parseOffsetMag cs2)
  | '-' :: cs2 => Option.map (fun m : Nat => -(m : Int)) (parseOffsetMag cs2)
  | _ => none

/-- `datetime.fromisoformat`, restricted to the timezone-aware shapes that
`Datetime.isoformat` produces (the repository only ever round-trips its own
output; naive datetimes and exotic ISO variants are outside the model). -/
def fromisoChars (cs : List Char) : Option Datetime :=
  match parseFixed 10 4 0 cs with
  | none => none
  | some (y, cs) =>
  match expectChar '-' cs with
  | none => none
  | some cs =>
  match parseFixed 10 2 0 cs with
  | none => none
  | some (mo, cs) =>
  match expectChar '-' cs with
  | none => none
  | some cs =>
  match parseFixed 10 2 0 cs with
  | none => none
  | some (dy, cs) =>
  match expectChar 'T' cs with
  | none => none
  | some cs =>
  match parseFixed 10 2 0 cs with
  | none => none
  | some (hr, cs) =>
  match expectChar ':' cs with
  | none => none
  | some cs =>
  match parseFixed 10 2 0 cs with
  | none => none
  | some (mi, cs) =>
  match expectChar ':' cs with
  | none => none
  | some cs =>
  match parseFixed 10 2 0 cs with
  | none => none
  | some (sec, cs) =>
  match parseFraction cs with
  | none => none
  | some (us, cs) =>
  match parseOffset cs with
  | none => none
  | some off => some ⟨y, mo, dy, hr, mi, sec, us, off⟩

def Datetime.fromisoformat (s : String) : Option Datetime :=
  fromisoChars s.data

/-! ## `app/models.py`: `TransactionType` and `Transaction` -/

/-- `class TransactionType(Enum): INCOME = 1; EXPENSE = 2; UNDEFINED = 3`. -/

inductive TransactionType
  | INCOME
  | EXPENSE
  | UNDEFINED
deriving DecidableEq, Repr

/-- `self.type.name` — the member's name string. -/
def TransactionType.name : TransactionType → String
  | .INCOME => "INCOME"
  | .EXPENSE => "EXPENSE"
  | .UNDEFINED => "UNDEFINED"

/-- `TransactionType[s]` — lookup of an enum member by name; a missing name
raises `KeyError` (modelled as `none`). -/
def TransactionType.fromName (s : String) : Option TransactionType :=
  if s = "INCOME" then some .INCOME
  else if s = "EXPENSE" then some .EXPENSE
  else if s = "UNDEFINED" then some .UNDEFINED
  else none

/-- The `Transaction` dataclass of `app/models.py`: `id`, `date`, `type`,
`amount` (a Python `float`, modelled exactly as `Rat`), optional
`description`. -/
structure Transaction where
  id : UUID
  date : Datetime
  type : TransactionType
  amount : Rat
  description : Option String
deriving DecidableEq, Repr

/-- The dictionary produced by `Transaction.to_dict` / consumed by
`Transaction.from_dict` (also one JSON record of the database file):
`id` and `date` and `type` are strings, `amount` a number, `description` a
string or `null`. -/
structure TransactionDict where
  id : String
  date : String
  type : String
  amount : Rat
  description : Option String
deriving DecidableEq, Repr

/-- `Transaction.to_dict`: `str(self.id)`, `self.date.isoformat()`,
`self.type.name`, `self.amount`, `self.description`. -/
def Transaction.to_dict (t : Transaction) : TransactionDict :=
  { id := t.id.str
    date := t.date.isoformat
    type := t.type.name
    amount := t.amount
    description := t.description }

/-- `Transaction.from_dict`: `uuid.UUID(data["id"])`,
`datetime.fromisoformat(data["date"])`, `TransactionType[data["type"]]`,
`data["amount"]`, `data["description"]`; a parse failure in any field
raises (modelled as `none`). -/
def Transaction.from_dict (data : TransactionDict) : Option Transaction :=
  match UUID.parse data.id, Datetime.fromisoformat data.date,
      TransactionType.fromName data.type with
  | some i, some dt, some ty =>
      some { id := i, date := dt, type := ty, amount := data.amount,
             description := data.description }
  | _, _, _ => none

/-- A `Transaction` the repository can actually build: its UUID is a
128-bit value and its date satisfies CPython's `datetime` field ranges
(timezone-aware, whole-minute offset). -/
def Transaction.Valid (t : Transaction) : Prop :=
  t.id.val < 2 ^ 128 ∧ t.date.Valid

instance (t : Transaction) : Decidable t.Valid := by
  unfold Transaction.Valid
  infer_instance

/-! ## `app/db/jsonfile.py`: the JSON-file storage engine

The engine's exceptions, named by the spec's taxonomy (§7):
`AttributeError("No filename provided")` in `connect` is the spec's
`ConfigurationError`; `FileNotFoundError` from `open` is `NotFoundError`;
`json.JSONDecodeError` (which an empty file also triggers) and per-record
decode failures in `Transaction.from_dict` are `MalformedDataError`;
`ValueError("... not found")` is `NotFoundError` and
`ValueError("Multiple transactions ...")` is `ConflictError` in
`get_transaction`. `StateError` stands for the `AttributeError`/`TypeError`
the reference hits when a CRUD method runs on a disconnected engine, and
`SerializationError` for a `TypeError`/`ValueError` raised while encoding a
record during `json.dump`. -/
inductive DbError
  | ConfigurationError
  | NotFoundError
  | MalformedDataError
  | ConflictError
  | StateError
  | SerializationError
deriving DecidableEq, Repr

/-- The effect of a Python list comprehension `[f(x) for x in xs]` whose
body can raise: the first raise aborts the whole comprehension, yielding
no list at all. -/
def comprehend (f : α → Option β) : List α → Option (List β)
  | [] => some []
  | x :: xs => (f x).bind fun y => (comprehend f xs).map fun ys => y :: ys

/-- Content of one on-disk file: either a document that parses as a JSON
array of records, or content that is not valid JSON — a zero-length
(truncated) file included. -/
inductive FileData
  | valid (records : List TransactionDict)
  | invalid
deriving DecidableEq, Repr

/-- The file system: an association list from filename to content. -/
structure FS where
  files : List (String × FileData)
deriving DecidableEq, Repr

def FS.get (fs : FS) (name : String) : Option FileData :=
  (fs.files.find? (fun p => p.1 == name)).map (fun p => p.2)

def FS.set (fs : FS) (name : String) (d : FileData) : FS :=
  ⟨(name, d) :: fs.files.filter (fun p => ¬ p.1 == name)⟩

/-- The `JsonFileDatabase` object state: the connection target and the
in-memory working set. `none` models the unset/`None` attribute. -/
structure JsonFileDatabase where
  filename : Option String
  _transactions : Option (List Transaction)
deriving DecidableEq, Repr

namespace JsonFileDatabase

/-- `read` given a concrete filename: `open(filename)` then `json.load`
then `Transaction.from_dict` on each record. -/
def readFile (filename : String) (fs : FS) : Except DbError (List Transaction) :=
  match fs.get filename with
  | none => .error .NotFoundError
  | some .invalid => .error .MalformedDataError
  | some (.valid recs) =>
      match comprehend Transaction.from_dict recs with
      | none => .error .MalformedDataError
      | some ts => .ok ts

/-- `read(self)`: re-parses the external resource named by `self.filename`
(`open(None)` on a disconnected engine raises `TypeError`). -/
def read (st : JsonFileDatabase) (fs : FS) : Except DbError (List Transaction) :=
  match st.filename with
  | none => .error .StateError
  | some f => readFile f fs

/-- `connect(**kwargs)`: a falsy `filename` (missing, `None` or `""`)
raises before anything is assigned; otherwise `self.filename` is assigned
FIRST and only then `self._transactions = self.read()`, so a read failure
leaves the new filename behind. Returns the post-call state and the raised
exception, if any. -/
def connect (st : JsonFileDatabase) (fs : FS) (filename : Option String) :
    JsonFileDatabase × Option DbError :=
  match filename with
  | none => (st, some .ConfigurationError)
  | some f =>
      if f = "" then (st, some .ConfigurationError)
      else
        let st1 : JsonFileDatabase := { st with filename := some f }
        match readFile f fs with
        | .error e => (st1, some e)
        | .ok ts => ({ st1 with _transactions := some ts }, none)

/-- `disconnect`: both attributes set to `None`. -/
def disconnect (_st : JsonFileDatabase) : JsonFileDatabase :=
  { filename := none, _transactions := none }

/-- `get_transactions`: `self._transactions or []` (`None` and the empty
list are both falsy, and both yield `[]`). -/
def get_transactions (st : JsonFileDatabase) : List Transaction :=
  match st._transactions with
  | none => []
  | some l => l

/-- `write(transactions, read_again=True)`, generalized over the record
encoder so that a `json.dump` encoding failure is expressible.
`open(self.filename, "w")` truncates the file BEFORE any byte is written,
so an encoding failure leaves invalid (empty or partial) content behind;
on success the whole array replaces the file, and if `read_again` is true
the working set is reloaded from the freshly written file. -/
def writeWith (enc : Transaction → Option TransactionDict)
    (st : JsonFileDatabase) (fs : FS) (transactions : List Transaction)
    (read_again : Bool) : (JsonFileDatabase × FS) × Option DbError :=
  match st.filename with
  | none => ((st, fs), some .StateError)
  | some f =>
      let fsOpen := fs.set f .invalid
      match comprehend enc transactions with
      | none => ((st, fsOpen), some .SerializationError)
      | some recs =>
          let fs1 := fsOpen.set f (.valid recs)
          if read_again then
            match readFile f fs1 with
            | .error e => ((st, fs1), some e)
            | .ok ts => (({ st with _transactions := some ts }, fs1), none)
          else ((st, fs1), none)

/-- `write` with the actual encoder `transaction.to_dict()` (total on
well-typed transactions). -/
def write (st : JsonFileDatabase) (fs : FS) (transactions : List Transaction)
    (read_again : Bool) : (JsonFileDatabase × FS) × Option DbError :=
  writeWith (fun t => some t.to_dict) st fs transactions read_again

/-- `get_transaction(transaction_id)`: filter the working set by id;
zero matches raise `ValueError(".. not found")`, two or more raise
`ValueError("Multiple transactions ..")`, else return the single match.
`self` is returned unchanged — the method never mutates it. -/
def get_transaction (st : JsonFileDatabase) (tid : UUID) :
    JsonFileDatabase × Except DbError Transaction :=
  match st.get_transactions.filter (fun t => t.id == tid) with
  | [] => (st, .error .NotFoundError)
  | [t] => (st, .ok t)
  | _ :: _ :: _ => (st, .error .ConflictError)

/-- `add_transaction`: `self._transactions.append(transaction)` (raises
`AttributeError` when `_transactions` is `None`); never touches the disk. -/
def add_transaction (st : JsonFileDatabase) (fs : FS) (t : Transaction) :
    (JsonFileDatabase × FS) × Option DbError :=
  match st._transactions with
  | none => ((st, fs), some .StateError)
  | some l => (({ st with _transactions := some (l ++ [t]) }, fs), none)

/-- `delete_transaction`: locate via `get_transaction` (propagating its
errors with the state untouched), then `self._transactions.remove(..)` —
removal of the first structurally-equal element; returns the removed
record. Never touches the disk. -/
def delete_transaction (st : JsonFileDatabase) (fs : FS) (tid : UUID) :
    (JsonFileDatabase × FS) × Except DbError Transaction :=
  match st.get_transaction tid with
  | (st1, .error e) => ((st1, fs), .error e)
  | (st1, .ok t) =>
      match st1._transactions with
      | none => ((st1, fs), .error .StateError)
      | some l => (({ st1 with _transactions := some (l.erase t) }, fs), .ok t)

/-- `change_transaction`: `self.delete_transaction(transaction_id)` then
`self.add_transaction(new_transaction)`; an exception from the delete
propagates and the add never runs. -/
def change_transaction (st : JsonFileDatabase) (fs : FS) (tid : UUID)
    (nt : Transaction) : (JsonFileDatabase × FS) × Option DbError :=
  match st.delete_transaction fs tid with
  | ((st1, fs1), .error e) => ((st1, fs1), some e)
  | ((st1, fs1), .ok _) => st1.add_transaction fs1 nt

end JsonFileDatabase

/-! ## `app/utils.py`: `calculate_expenses` -/

/-- `calculate_expenses`: `float(sum([abs(t.amount) if t.type ==
TransactionType.INCOME else -abs(t.amount) for t in transactions]))`. -/

def calculate_expenses (transactions : List Transaction) : Rat :=
  (transactions.map (fun t =>
    if t.type = TransactionType.INCOME then |t.amount| else -|t.amount|)).sum

/-- `Transaction.clone(type=None, amount=0, description=None, date=None)`:
a new record with the same `id` and each field `argument or self.field`.
Python truthiness decides: `None`, `0`/`0.0` and `""` are falsy (so they
fall back to the original field), while every `TransactionType` member and
every `datetime` object is truthy. The Python default for `amount` is `0`,
itself falsy, so `some 0` and `none` behave identically. -/
def Transaction.clone (t : Transaction) (type : Option TransactionType)
    (amount : Option Rat) (description : Option String)
    (date : Option Datetime) : Transaction :=
  { id := t.id
    type :=
      match type with
      | some ty => ty
      | none => t.type
    amount :=
      match amount with
      | some a => if a = 0 then t.amount else a
      | none => t.amount
    description :=
      match description with
      | some s => if s = "" then t.description else some s
      | none => t.description
    date :=
      match date with
      | some dt => dt
      | none => t.date }

/-- The spec's composite for `changeById` (§4.3), written from the spec's
words for comparison with `change_transaction`: perform `deleteById(id)`;
on failure propagate its error with the state the delete left; on success
perform `add(newTransaction)`. -/
def deleteThenAdd (st : JsonFileDatabase) (fs : FS) (tid : UUID)
    (nt : Transaction) : (JsonFileDatabase × FS) × Option DbError :=
  match st.delete_transaction fs tid with
  | ((st1, fs1), .error e) => ((st1, fs1), some e)
  | ((st1, fs1), .ok _) => st1.add_transaction fs1 nt

/-! ## Concrete sample data (used by the witnesses) -/

def sampleDate : Datetime := ⟨2024, 5, 1, 12, 30, 15, 123456, 180⟩

def sampleDateUtc : Datetime := ⟨2024, 6, 2, 8, 0, 0, 0, 0⟩

def sampleTx : Transaction :=
  { id := ⟨331239814718627411350105244399633559822⟩, date := sampleDate,
    type := .INCOME, amount := 1000, description := some "salary" }

def sampleTx2 : Transaction :=
  { id := ⟨77⟩, date := sampleDateUtc, type := .EXPENSE, amount := 2000,
    description := none }

def sampleTx3 : Transaction :=
  { id := ⟨77⟩, date := sampleDateUtc, type := .EXPENSE, amount := 2500,
    description := some "rent" }

def exIncome1000 : Transaction :=
  { id := ⟨1⟩, date := sampleDateUtc, type := .INCOME, amount := 1000,
    description := none }

def exExpense2000 : Transaction :=
  { id := ⟨2⟩, date := sampleDateUtc, type := .EXPENSE, amount := 2000,
    description := none }

def exExpense3000 : Transaction :=
  { id := ⟨3⟩, date := sampleDateUtc, type := .EXPENSE, amount := 3000,
    description := none }

def dbOne : JsonFileDatabase :=
  { filename := some "db.json", _transactions := some [sampleTx, sampleTx2] }

def dbDup : JsonFileDatabase :=
  { filename := some "db.json", _transactions := some [sampleTx, sampleTx] }

def dbEmptyWS : JsonFileDatabase :=
  { filename := some "db.json", _transactions := some [] }

def fsSample : FS := ⟨[("db.json", .valid [])]⟩

def junkRecord : TransactionDict :=
  { id := "zzz", date := "x", type := "INCOME", amount := 0,
    description := none }

def fsC5 : FS :=
  ⟨[("bad.json", .invalid), ("good.json", .valid [sampleTx.to_dict]),
    ("junk.json", .valid [junkRecord])]⟩

def priorData : FileData := .valid [sampleTx.to_dict]

def fsC9 : FS := ⟨[("db.json", priorData)]⟩

/-- An encoder that fails on the second sample record, standing for a
`json.dump` serialization failure partway through the collection. -/
def failingEnc : Transaction → Option TransactionDict :=
  fun t => if t.id = sampleTx2.id then none else some t.to_dict

/-! ## Theorems -/

theorem digitVal_digitChar {d : Nat} (h : d < 16) :
    digitVal (digitChar d) = some d := by
  interval_cases d <;> rfl

theorem digitChar_ne_sep {d : Nat} (h : d < 16) :
    digitChar d ≠ '-' ∧ digitChar d ≠ ':' ∧ digitChar d ≠ 'T' ∧
    digitChar d ≠ '.' ∧ digitChar d ≠ '+' := by
  interval_cases d <;> exact ⟨by decide, by decide, by decide, by decide, by decide⟩

theorem parseFixed_split (base w1 w2 : Nat) (acc : Nat) (cs : List Char) :
    parseFixed base (w1 + w2) acc cs =
      match parseFixed base w1 acc cs with
      | some (a, rest) => parseFixed base w2 a rest
      | none => none := by
  induction w1 generalizing acc cs with
  | zero => simp [parseFixed]
  | succ w ih =>
      cases cs with
      | nil => simp [Nat.succ_add, parseFixed]
      | cons c cs =>
          rw [Nat.succ_add]
          simp only [parseFixed]
          cases digitVal c with
          | none => rfl
          | some v =>
              by_cases hv : v < base
              · simp [hv, ih]
              · simp [hv]

theorem parseFixed_toDigits (base : Nat) (hb : 2 ≤ base) (hd : base ≤ 16) :
    ∀ (w n acc : Nat) (rest : List Char), n < base ^ w →
      parseFixed base w acc (toDigits base w n ++ rest) =
        some (acc * base ^ w + n, rest) := by
  intro w
  induction w with
  | zero =>
      intro n acc rest hn
      simp only [pow_zero, Nat.lt_one_iff] at hn
      simp [toDigits, parseFixed, hn]
  | succ w ih =>
      intro n acc rest hn
      have hdiv : n / base < base ^ w := by
        rw [Nat.div_lt_iff_lt_mul (by omega)]
        calc n < base ^ (w + 1) := hn
        _ = base ^ w * base := by ring
      have hmod : n % base < base := Nat.mod_lt _ (by omega)
      have hmod16 : n % base < 16 := lt_of_lt_of_le hmod hd
      rw [toDigits, List.append_assoc, List.singleton_append,
        parseFixed_split base w 1 acc, ih (n / base) acc _ hdiv]
      simp only [parseFixed, digitVal_digitChar hmod16, hmod]
      have : (acc * base ^ w + n / base) * base + n % base =
          acc * base ^ (w + 1) + n := by
        conv_rhs => rw [← Nat.div_add_mod n base]
        ring
      simp [this]

/-- Every character of a fixed-width digit string is a base-16 digit
character, hence none of the literal separator characters. -/
theorem toDigits_mem {base w n : Nat} (hd : base ≤ 16) (hb : 0 < base)
    {c : Char} (hc : c ∈ toDigits base w n) : ∃ d, d < 16 ∧ c = digitChar d := by
  induction w generalizing n with
  | zero => simp [toDigits] at hc
  | succ w ih =>
      simp only [toDigits, List.mem_append, List.mem_singleton] at hc
      rcases hc with hc | hc
      · exact ih hc
      · exact ⟨n % base, lt_of_lt_of_le (Nat.mod_lt _ hb) hd, hc⟩

theorem length_toDigits (base w n : Nat) : (toDigits base w n).length = w := by
  induction w generalizing n with
  | zero => rfl
  | succ w ih => simp [toDigits, ih]

theorem filter_sep_toDigits (w n : Nat) :
    (toDigits 16 w n).filter (fun c => c ≠ '-') = toDigits 16 w n := by
  rw [List.filter_eq_self]
  intro c hc
  obtain ⟨d, hd, rfl⟩ := toDigits_mem (by norm_num) (by norm_num) hc
  simpa using (digitChar_ne_sep hd).1

theorem UUID.parse_str {u : UUID} (h : u.val < 2 ^ 128) :
    UUID.parse u.str = some u := by
  have hrecomb : ∀ cs : List Char,
      cs.take 8 ++ '-' :: (cs.drop 8).take 4 ++ '-' :: (cs.drop 12).take 4 ++
        '-' :: (cs.drop 16).take 4 ++ '-' :: cs.drop 20 =
      cs.take 8 ++ ['-'] ++ ((cs.drop 8).take 4 ++ ['-'] ++
        ((cs.drop 12).take 4 ++ ['-'] ++ ((cs.drop 16).take 4 ++ ['-'] ++
          cs.drop 20))) := by
    intro cs
    simp
  have hfilter :
      (UUID.str u).data.filter (fun c => c ≠ '-') = toDigits 16 32 u.val := by
    set cs := toDigits 16 32 u.val with hcs
    have hstep : ∀ (a : List Char) (b : List Char),
        (a ++ ['-'] ++ b).filter (fun c => c ≠ '-') =
          a.filter (fun c => c ≠ '-') ++ b.filter (fun c => c ≠ '-') := by
      intro a b
      simp [List.filter_append]
    have hsub : ∀ k m : Nat,
        ((cs.drop k).take m).filter (fun c => c ≠ '-') = (cs.drop k).take m := by
      intro k m
      rw [List.filter_eq_self]
      intro c hc
      have hc' : c ∈ cs := List.mem_of_mem_drop (List.mem_of_mem_take hc)
      obtain ⟨d, hd, rfl⟩ := toDigits_mem (by norm_num) (by norm_num) hc'
      simpa using (digitChar_ne_sep hd).1
    have htake : (cs.take 8).filter (fun c => c ≠ '-') = cs.take 8 := by
      rw [List.filter_eq_self]
      intro c hc
      have hc' : c ∈ cs := List.mem_of_mem_take hc
      obtain ⟨d, hd, rfl⟩ := toDigits_mem (by norm_num) (by norm_num) hc'
      simpa using (digitChar_ne_sep hd).1
    have hdropf : (cs.drop 20).filter (fun c => c ≠ '-') = cs.drop 20 := by
      rw [List.filter_eq_self]
      intro c hc
      have hc' : c ∈ cs := List.mem_of_mem_drop hc
      obtain ⟨d, hd, rfl⟩ := toDigits_mem (by norm_num) (by norm_num) hc'
      simpa using (digitChar_ne_sep hd).1
    show (cs.take 8 ++ '-' :: (cs.drop 8).take 4 ++ '-' :: (cs.drop 12).take 4 ++
        '-' :: (cs.drop 16).take 4 ++ '-' :: cs.drop 20).filter (fun c => c ≠ '-') = cs
    rw [hrecomb, hstep, hstep, hstep, hstep, htake, hsub, hsub, hsub, hdropf]
    have hlen : cs.length = 32 := length_toDigits 16 32 u.val
    have h8 : (cs.drop 8).take 4 = (cs.take 12).drop 8 := by
      rw [List.drop_take]
    have h12 : (cs.drop 12).take 4 = (cs.take 16).drop 12 := by
      rw [List.drop_take]
    have h16 : (cs.drop 16).take 4 = (cs.take 20).drop 16 := by
      rw [List.drop_take]
    rw [h8, h12, h16]
    have grow : ∀ a b : Nat, a ≤ b →
        cs.take a ++ (cs.take b).drop a = cs.take b := by
      intro a b hab
      have h1 : cs.take a = (cs.take b).take a := by
        rw [List.take_take, Nat.min_eq_left hab]
      rw [h1, List.take_append_drop]
    have s1 : cs.take 8 ++ (cs.take 12).drop 8 = cs.take 12 := grow 8 12 (by norm_num)
    have s2 : cs.take 12 ++ (cs.take 16).drop 12 = cs.take 16 := grow 12 16 (by norm_num)
    have s3 : cs.take 16 ++ (cs.take 20).drop 16 = cs.take 20 := grow 16 20 (by norm_num)
    have s4 : cs.take 20 ++ cs.drop 20 = cs := List.take_append_drop 20 cs
    rw [← List.append_assoc, ← List.append_assoc, ← List.append_assoc,
      s1, s2, s3, s4]
  unfold UUID.parse
  rw [hfilter]
  have h128 : u.val < 16 ^ 32 := by
    have h2 : (16 : Nat) ^ 32 = 2 ^ 128 := by norm_num
    omega
  have hp := parseFixed_toDigits 16 (by norm_num) (by norm_num) 32 u.val 0 [] h128
  rw [List.append_nil] at hp
  simp [length_toDigits, hp]

theorem expectChar_cons (c : Char) (cs : List Char) :
    expectChar c (c :: cs) = some cs := by
  simp [expectChar]

theorem parseFraction_dot (cs : List Char) :
    parseFraction ('.' :: cs) = parseFixed 10 6 0 cs := rfl

theorem parseFraction_plus (cs : List Char) :
    parseFraction ('+' :: cs) = some (0, '+' :: cs) := rfl

theorem parseFraction_minus (cs : List Char) :
    parseFraction ('-' :: cs) = some (0, '-' :: cs) := rfl

theorem parseOffset_plus (cs : List Char) :
    parseOffset ('+' :: cs) =
      Option.map (fun m : Nat => (m : Int)) (parseOffsetMag cs) := rfl

theorem parseOffset_minus (cs : List Char) :
    parseOffset ('-' :: cs) =
      Option.map (fun m : Nat => -(m : Int)) (parseOffsetMag cs) := rfl

theorem parseOffsetMag_digits {hh mm : Nat} (hhh : hh < 100) (hmm : mm < 100) :
    parseOffsetMag (toDigits 10 2 hh ++ ':' :: toDigits 10 2 mm) =
      some (hh * 60 + mm) := by
  have PF := parseFixed_toDigits 10 (by norm_num) (by norm_num)
  have phh : hh < 10 ^ 2 := by omega
  have pmm : mm < 10 ^ 2 := by omega
  have e2 : toDigits 10 2 mm = toDigits 10 2 mm ++ [] := by simp
  unfold parseOffsetMag
  rw [PF 2 hh 0 _ phh]
  simp only [Nat.zero_mul, Nat.zero_add, expectChar_cons]
  rw [e2, PF 2 mm 0 [] pmm]
  simp

theorem parseOffset_offsetChars {d : Datetime} (h : d.tzMinutes.natAbs < 1440) :
    parseOffset d.offsetChars = some d.tzMinutes := by
  have hdiv : d.tzMinutes.natAbs / 60 < 100 := by omega
  have hmod : d.tzMinutes.natAbs % 60 < 100 := by
    have := Nat.mod_lt d.tzMinutes.natAbs (show 0 < 60 by norm_num)
    omega
  have hrec : d.tzMinutes.natAbs / 60 * 60 + d.tzMinutes.natAbs % 60 =
      d.tzMinutes.natAbs := by
    conv_rhs => rw [← Nat.div_add_mod d.tzMinutes.natAbs 60]
    ring
  unfold Datetime.offsetChars
  by_cases hsign : 0 ≤ d.tzMinutes
  · rw [if_pos hsign, parseOffset_plus, parseOffsetMag_digits hdiv hmod,
      Option.map_some']
    have he : ((d.tzMinutes.natAbs / 60 * 60 + d.tzMinutes.natAbs % 60 : Nat) : Int) =
        d.tzMinutes := by omega
    exact congrArg some he
  · rw [if_neg hsign, parseOffset_minus, parseOffsetMag_digits hdiv hmod,
      Option.map_some']
    have he : -((d.tzMinutes.natAbs / 60 * 60 + d.tzMinutes.natAbs % 60 : Nat) : Int) =
        d.tzMinutes := by omega
    exact congrArg some he

theorem Datetime.fromisoformat_isoformat {d : Datetime} (hv : d.Valid) :
    Datetime.fromisoformat d.isoformat = some d := by
  obtain ⟨y, mo, dy, hr, mi, se, us, tz⟩ := d
  unfold Datetime.Valid at hv
  dsimp only at hv
  obtain ⟨hy1, hy2, hm1, hm2, hd1, hd2, hh, hmi, hs, hus, htz⟩ := hv
  have PF := parseFixed_toDigits 10 (by norm_num) (by norm_num)
  have py : y < 10 ^ 4 := by omega
  have pm : mo < 10 ^ 2 := by omega
  have pd : dy < 10 ^ 2 := by omega
  have ph : hr < 10 ^ 2 := by omega
  have pmi : mi < 10 ^ 2 := by omega
  have ps : se < 10 ^ 2 := by omega
  have pus : us < 10 ^ 6 := by omega
  have hoff := parseOffset_offsetChars (d := ⟨y, mo, dy, hr, mi, se, us, tz⟩) htz
  show fromisoChars _ = _
  unfold Datetime.isoformat
  simp only [String.data]
  unfold fromisoChars
  simp only [List.append_assoc, List.cons_append]
  rw [PF 4 y 0 _ py]
  simp only [Nat.zero_mul, Nat.zero_add, expectChar_cons]
  rw [PF 2 mo 0 _ pm]
  simp only [Nat.zero_mul, Nat.zero_add, expectChar_cons]
  rw [PF 2 dy 0 _ pd]
  simp only [Nat.zero_mul, Nat.zero_add, expectChar_cons]
  rw [PF 2 hr 0 _ ph]
  simp only [Nat.zero_mul, Nat.zero_add, expectChar_cons]
  rw [PF 2 mi 0 _ pmi]
  simp only [Nat.zero_mul, Nat.zero_add, expectChar_cons]
  rw [PF 2 se 0 _ ps]
  simp only [Nat.zero_mul, Nat.zero_add, expectChar_cons]
  by_cases hus0 : us = 0
  · subst hus0
    rw [if_pos rfl, List.nil_append]
    unfold Datetime.offsetChars
    by_cases hsign : 0 ≤ tz
    · have h2 := hoff
      unfold Datetime.offsetChars at h2
      rw [if_pos hsign] at h2 ⊢
      rw [parseFraction_plus]
      simp only [h2]
    · have h2 := hoff
      unfold Datetime.offsetChars at h2
      rw [if_neg hsign] at h2 ⊢
      rw [parseFraction_minus]
      simp only [h2]
  · rw [if_neg hus0, List.cons_append, parseFraction_dot, PF 6 us 0 _ pus]
    simp only [Nat.zero_mul, Nat.zero_add]
    rw [hoff]

theorem TransactionType.fromName_name (ty : TransactionType) :
    TransactionType.fromName ty.name = some ty := by
  cases ty <;> rfl

/-- Serialization round-trip on any valid transaction (shared helper). -/
theorem from_dict_to_dict {t : Transaction} (h : t.Valid) :
    Transaction.from_dict t.to_dict = some t := by
  obtain ⟨hid, hdate⟩ := h
  unfold Transaction.from_dict Transaction.to_dict
  rw [UUID.parse_str hid, Datetime.fromisoformat_isoformat hdate,
    TransactionType.fromName_name]

theorem FS.get_set (fs : FS) (name : String) (d : FileData) :
    (fs.set name d).get name = some d := by
  simp [FS.get, FS.set, List.find?]

theorem FS.get_set_ne (fs : FS) {name other : String} (d : FileData)
    (h : other ≠ name) : (fs.set name d).get other = fs.get other := by
  unfold FS.get FS.set
  simp only [List.find?]
  have hne : ((name, d).1 == other) = false := by
    simp [bne, Ne.symm h]
  rw [hne]
  congr 2
  induction fs.files with
  | nil => rfl
  | cons p l ih =>
      by_cases hp : p.1 = name
      · have h1 : (¬ p.1 == name) = false := by simp [hp]
        have h2 : (p.1 == other) = false := by simp [hp, Ne.symm h]
        simp only [List.filter, h1, List.find?, h2]
        exact ih
      · have h1 : (¬ p.1 == name) = true := by simp [hp]
        simp only [List.filter, h1, List.find?]
        cases hq : p.1 == other with
        | true => rfl
        | false => exact ih

/-! ## Claim theorems -/

/-- C1: for every valid `Transaction` (well-formed 128-bit UUID `id`,
in-range timezone-aware `date`, enum `type`, numeric `amount`, optional
`description`), deserializing the serialized form is the identity:
`Transaction.from_dict (Transaction.to_dict t) = some t`, so all five
fields are restored. -/
theorem C1_from_dict_to_dict_roundtrip (t : Transaction) (h : t.Valid) :
    Transaction.from_dict t.to_dict = some t :=
  from_dict_to_dict h

/-- Witness for C1: the round trip at a concrete valid transaction. -/
theorem C1_witness :
    sampleTx.Valid ∧ Transaction.from_dict sampleTx.to_dict = some sampleTx :=
  ⟨by decide, C1_from_dict_to_dict_roundtrip sampleTx (by decide)⟩

/-- C3: on transactions whose stored amounts are the non-negative
magnitudes the data model prescribes, `calculate_expenses` returns the sum
of `+amount` over `INCOME` entries and `-amount` over entries of any other
type; the empty list yields `0`; and the spec's example
`[Income 1000, Expense 2000, Expense 3000]` yields `-4000`. The function
is pure — it only maps and sums, never mutating its input. -/
theorem C3_calculate_expenses_spec (ts : List Transaction)
    (h : ∀ t ∈ ts, 0 ≤ t.amount) :
    calculate_expenses ts =
      (ts.map (fun t => if t.type = TransactionType.INCOME
        then t.amount else -t.amount)).sum ∧
    calculate_expenses ([] : List Transaction) = 0 ∧
    calculate_expenses [exIncome1000, exExpense2000, exExpense3000] = -4000 := by
  refine ⟨?_, rfl, ?_⟩
  · unfold calculate_expenses
    congr 1
    apply List.map_congr_left
    intro t ht
    have ha := h t ht
    by_cases hty : t.type = TransactionType.INCOME <;>
      simp [hty, abs_of_nonneg ha]
  · simp [calculate_expenses, exIncome1000, exExpense2000, exExpense3000,
      abs_of_nonneg (show (0 : Rat) ≤ 1000 by norm_num),
      abs_of_nonneg (show (0 : Rat) ≤ 2000 by norm_num),
      abs_of_nonneg (show (0 : Rat) ≤ 3000 by norm_num)]
    norm_num

/-- Witness for C3: the theorem applied at the spec's example list. -/
theorem C3_witness :
    (∀ t ∈ [exIncome1000, exExpense2000, exExpense3000], 0 ≤ t.amount) ∧
    calculate_expenses [exIncome1000, exExpense2000, exExpense3000] = -4000 :=
  ⟨by decide,
   (C3_calculate_expenses_spec [exIncome1000, exExpense2000, exExpense3000]
     (by decide)).2.2⟩

/-- C8: `clone` always keeps the original `id`; omitted arguments (and the
Python default `amount=0`) leave each field at the original's value; and a
falsy explicit value — amount `0`, empty-string description — does NOT
override the original field, exactly as if it had been omitted. -/
theorem C8_clone_spec (t : Transaction) (ty : Option TransactionType)
    (a : Option Rat) (ds : Option String) (dt : Option Datetime) :
    (t.clone ty a ds dt).id = t.id ∧
    t.clone none (some 0) none none = t ∧
    t.clone none none none none = t ∧
    t.clone ty (some 0) ds dt = t.clone ty none ds dt ∧
    t.clone ty a (some "") dt = t.clone ty a none dt ∧
    (t.clone none a ds dt).type = t.type ∧
    (t.clone ty none ds dt).amount = t.amount ∧
    (t.clone ty a none dt).description = t.description ∧
    (t.clone ty a ds none).date = t.date := by
  unfold Transaction.clone
  refine ⟨rfl, by simp, rfl, by simp, by simp, rfl, rfl, rfl, rfl⟩

/-- C10: `connect` checks the filename with Python truthiness, so an empty
string (provided but empty) raises the same `ConfigurationError` as a
missing filename, before any file is opened and before any attribute
assignment: the engine state is returned unchanged. -/
theorem C10_connect_empty_filename (st : JsonFileDatabase) (fs : FS) :
    JsonFileDatabase.connect st fs (some "") = (st, some .ConfigurationError) := by
  unfold JsonFileDatabase.connect
  simp

/-- C2: `get_transaction` never modifies the engine state, and on the
working set filtered by the requested id: zero matches raise
`NotFoundError`, exactly one match returns that unique record, two or more
matches raise `ConflictError`. -/
theorem C2_get_transaction_spec (st : JsonFileDatabase) (tid : UUID) :
    (st.get_transaction tid).1 = st ∧
    (st.get_transactions.filter (fun t => t.id == tid) = [] →
      (st.get_transaction tid).2 = .error .NotFoundError) ∧
    (∀ t, st.get_transactions.filter (fun t => t.id == tid) = [t] →
      (st.get_transaction tid).2 = .ok t) ∧
    (2 ≤ (st.get_transactions.filter (fun t => t.id == tid)).length →
      (st.get_transaction tid).2 = .error .ConflictError) := by
  rcases hl : st.get_transactions.filter (fun t => t.id == tid) with _ | ⟨a, _ | ⟨b, l⟩⟩
  · refine ⟨?_, fun _ => ?_, fun t ht => ?_, fun h2 => ?_⟩
    · simp [JsonFileDatabase.get_transaction, hl]
    · simp [JsonFileDatabase.get_transaction, hl]
    · rw [hl] at ht
      cases ht
    · rw [hl] at h2
      simp at h2
  · refine ⟨?_, fun h0 => ?_, fun t ht => ?_, fun h2 => ?_⟩
    · simp [JsonFileDatabase.get_transaction, hl]
    · rw [hl] at h0
      cases h0
    · rw [hl] at ht
      cases ht
      simp [JsonFileDatabase.get_transaction, hl]
    · rw [hl] at h2
      simp at h2
  · refine ⟨?_, fun h0 => ?_, fun t ht => ?_, fun h2 => ?_⟩
    · simp [JsonFileDatabase.get_transaction, hl]
    · rw [hl] at h0
      cases h0
    · rw [hl] at ht
      cases ht
    · simp [JsonFileDatabase.get_transaction, hl]

/-- Witness for C2: a unique match is returned, an absent id raises
`NotFoundError`, a duplicated id raises `ConflictError`. -/
theorem C2_witness :
    (dbOne.get_transaction ⟨77⟩).2 = .ok sampleTx2 ∧
    (dbEmptyWS.get_transaction ⟨77⟩).2 = .error .NotFoundError ∧
    (dbDup.get_transaction sampleTx.id).2 = .error .ConflictError :=
  ⟨(C2_get_transaction_spec dbOne ⟨77⟩).2.2.1 sampleTx2 (by decide),
   (C2_get_transaction_spec dbEmptyWS ⟨77⟩).2.1 (by decide),
   (C2_get_transaction_spec dbDup sampleTx.id).2.2.2 (by decide)⟩

theorem readFile_none {f : String} {fs : FS} (hget : fs.get f = none) :
    JsonFileDatabase.readFile f fs = .error .NotFoundError := by
  unfold JsonFileDatabase.readFile
  rw [hget]

theorem readFile_invalid {f : String} {fs : FS}
    (hget : fs.get f = some .invalid) :
    JsonFileDatabase.readFile f fs = .error .MalformedDataError := by
  unfold JsonFileDatabase.readFile
  rw [hget]

theorem readFile_valid {f : String} {fs : FS} {recs : List TransactionDict}
    (hget : fs.get f = some (.valid recs)) :
    JsonFileDatabase.readFile f fs =
      match comprehend Transaction.from_dict recs with
      | none => .error .MalformedDataError
      | some ts => .ok ts := by
  unfold JsonFileDatabase.readFile
  rw [hget]

theorem connect_some (st : JsonFileDatabase) (fs : FS) {f : String}
    (hne : f ≠ "") :
    JsonFileDatabase.connect st fs (some f) =
      match JsonFileDatabase.readFile f fs with
      | .error e => ({ st with filename := some f }, some e)
      | .ok ts => ({ st with filename := some f, _transactions := some ts },
          none) := by
  cases h : JsonFileDatabase.readFile f fs <;>
    simp only [JsonFileDatabase.connect, if_neg hne, h]

/-- C5: `connect` fails in exactly these ways — no filename raises
`ConfigurationError`; a filename naming no existing file raises
`NotFoundError`; an existing file whose content is not a valid encoded
collection (invalid/empty JSON, or records that fail to decode) raises
`MalformedDataError`, never a silent empty collection. On success the full
decoded on-disk collection becomes the in-memory working set. -/
theorem C5_connect_spec (st : JsonFileDatabase) (fs : FS) :
    JsonFileDatabase.connect st fs none = (st, some .ConfigurationError) ∧
    (∀ f, f ≠ "" → fs.get f = none →
      JsonFileDatabase.connect st fs (some f) =
        ({ st with filename := some f }, some .NotFoundError)) ∧
    (∀ f, f ≠ "" → fs.get f = some .invalid →
      JsonFileDatabase.connect st fs (some f) =
        ({ st with filename := some f }, some .MalformedDataError)) ∧
    (∀ f recs, f ≠ "" → fs.get f = some (.valid recs) →
      comprehend Transaction.from_dict recs = none →
      JsonFileDatabase.connect st fs (some f) =
        ({ st with filename := some f }, some .MalformedDataError)) ∧
    (∀ f recs ts, f ≠ "" → fs.get f = some (.valid recs) →
      comprehend Transaction.from_dict recs = some ts →
      JsonFileDatabase.connect st fs (some f) =
        ({ st with filename := some f, _transactions := some ts }, none)) := by
  refine ⟨rfl, fun f hne hget => ?_, fun f hne hget => ?_,
    fun f recs hne hget hdec => ?_, fun f recs ts hne hget hdec => ?_⟩
  · rw [connect_some st fs hne, readFile_none hget]
  · rw [connect_some st fs hne, readFile_invalid hget]
  · rw [connect_some st fs hne, readFile_valid hget, hdec]
  · rw [connect_some st fs hne, readFile_valid hget, hdec]

/-- Witness for C5: each failure mode and the success mode at concrete
file systems (`fsC5` holds an invalid file, a decodable file and a file
whose record has a malformed id). -/
theorem C5_witness :
    JsonFileDatabase.connect dbEmptyWS fsC5 none =
      (dbEmptyWS, some .ConfigurationError) ∧
    JsonFileDatabase.connect dbEmptyWS fsC5 (some "missing.json") =
      ({ dbEmptyWS with filename := some "missing.json" },
        some .NotFoundError) ∧
    JsonFileDatabase.connect dbEmptyWS fsC5 (some "bad.json") =
      ({ dbEmptyWS with filename := some "bad.json" },
        some .MalformedDataError) ∧
    JsonFileDatabase.connect dbEmptyWS fsC5 (some "junk.json") =
      ({ dbEmptyWS with filename := some "junk.json" },
        some .MalformedDataError) ∧
    JsonFileDatabase.connect dbEmptyWS fsC5 (some "good.json") =
      (⟨some "good.json", some [sampleTx]⟩, none) :=
  ⟨(C5_connect_spec dbEmptyWS fsC5).1,
   (C5_connect_spec dbEmptyWS fsC5).2.1 "missing.json" (by decide) rfl,
   (C5_connect_spec dbEmptyWS fsC5).2.2.1 "bad.json" (by decide) rfl,
   (C5_connect_spec dbEmptyWS fsC5).2.2.2.1 "junk.json" [junkRecord]
     (by decide) rfl rfl,
   (C5_connect_spec dbEmptyWS fsC5).2.2.2.2 "good.json" [sampleTx.to_dict]
     [sampleTx] (by decide) rfl rfl⟩

/-- C6: with no record matching the id, `delete_transaction` raises
`NotFoundError` and leaves the working set (and the file system, which it
never touches) unchanged. With exactly one matching record `t`
(decomposition `l1 ++ t :: l2` where no other element carries the id), it
returns `t`, shrinks the working set to `l1 ++ l2` (everything else
unchanged, including the disk), and a subsequent `get_transaction` of the
same id raises `NotFoundError`. -/
theorem C6_delete_transaction_spec (st : JsonFileDatabase) (fs : FS)
    (tid : UUID) :
    (st.get_transactions.filter (fun t => t.id == tid) = [] →
      st.delete_transaction fs tid = ((st, fs), .error .NotFoundError)) ∧
    (∀ l1 t l2, st._transactions = some (l1 ++ t :: l2) → t.id = tid →
      (∀ u ∈ l1 ++ l2, u.id ≠ tid) →
      st.delete_transaction fs tid =
        ((⟨st.filename, some (l1 ++ l2)⟩, fs), .ok t) ∧
      ((⟨st.filename, some (l1 ++ l2)⟩ :
          JsonFileDatabase).get_transaction tid).2 = .error .NotFoundError) := by
  constructor
  · intro h0
    have hg : st.get_transaction tid = (st, .error .NotFoundError) := by
      unfold JsonFileDatabase.get_transaction
      rw [h0]
    unfold JsonFileDatabase.delete_transaction
    rw [hg]
  · intro l1 t l2 hmem hid hothers
    have hfl1 : l1.filter (fun u => u.id == tid) = [] :=
      List.filter_eq_nil_iff.mpr (fun u hu => by
        simp [hothers u (List.mem_append_left _ hu)])
    have hfl2 : l2.filter (fun u => u.id == tid) = [] :=
      List.filter_eq_nil_iff.mpr (fun u hu => by
        simp [hothers u (List.mem_append_right _ hu)])
    have hfilter : (l1 ++ t :: l2).filter (fun u => u.id == tid) = [t] := by
      rw [List.filter_append, hfl1, List.filter_cons_of_pos (by simp [hid]),
        hfl2]
      rfl
    have hget : st.get_transactions = l1 ++ t :: l2 := by
      unfold JsonFileDatabase.get_transactions
      rw [hmem]
    have hg : st.get_transaction tid = (st, .ok t) := by
      unfold JsonFileDatabase.get_transaction
      rw [hget, hfilter]
    have hnot : t ∉ l1 := fun hin =>
      (hothers t (List.mem_append_left _ hin)) hid
    have herase : (l1 ++ t :: l2).erase t = l1 ++ l2 := by
      rw [List.erase_append_right _ hnot, List.erase_cons_head]
    constructor
    · simp only [JsonFileDatabase.delete_transaction, hg, hmem, herase]
    · have hfilter2 : (l1 ++ l2).filter (fun u => u.id == tid) = [] := by
        rw [List.filter_append, hfl1, hfl2]
        rfl
      simp only [JsonFileDatabase.get_transaction,
        JsonFileDatabase.get_transactions, hfilter2]

/-- Witness for C6: deleting the one record with id 77 from the two-record
engine removes exactly it, returns it, and a second lookup fails. -/
theorem C6_witness :
    dbOne.delete_transaction fsSample ⟨77⟩ =
      ((⟨some "db.json", some [sampleTx]⟩, fsSample), .ok sampleTx2) ∧
    ((⟨some "db.json", some [sampleTx]⟩ :
        JsonFileDatabase).get_transaction ⟨77⟩).2 = .error .NotFoundError ∧
    dbEmptyWS.delete_transaction fsSample ⟨77⟩ =
      ((dbEmptyWS, fsSample), .error .NotFoundError) :=
  ⟨((C6_delete_transaction_spec dbOne fsSample ⟨77⟩).2 [sampleTx] sampleTx2 []
      rfl rfl (by decide)).1,
   ((C6_delete_transaction_spec dbOne fsSample ⟨77⟩).2 [sampleTx] sampleTx2 []
      rfl rfl (by decide)).2,
   (C6_delete_transaction_spec dbEmptyWS fsSample ⟨77⟩).1 (by decide)⟩

theorem delete_transaction_fs (st : JsonFileDatabase) (fs : FS) (tid : UUID) :
    (st.delete_transaction fs tid).1.2 = fs := by
  unfold JsonFileDatabase.delete_transaction
  rcases hg : st.get_transaction tid with ⟨st1, r⟩
  cases r with
  | error e => rfl
  | ok t =>
      dsimp only
      cases st1._transactions <;> rfl

theorem add_transaction_fs (st : JsonFileDatabase) (fs : FS)
    (t : Transaction) : (st.add_transaction fs t).1.2 = fs := by
  unfold JsonFileDatabase.add_transaction
  cases st._transactions <;> rfl

/-- C7: `change_transaction` is observably equivalent to the spec's
composite `deleteThenAdd` (delete by id, then add) in every state — same
resulting state and same error, including the failing cases; it never
touches the disk; and on a successful delete the final working set is the
delete's result with `nt` appended carrying whatever id `nt` embeds. -/
theorem C7_change_transaction_spec (st : JsonFileDatabase) (fs : FS)
    (tid : UUID) (nt : Transaction) :
    st.change_transaction fs tid nt = deleteThenAdd st fs tid nt ∧
    (st.change_transaction fs tid nt).1.2 = fs ∧
    (∀ st1 t l, st.delete_transaction fs tid = ((st1, fs), .ok t) →
      st1._transactions = some l →
      st.change_transaction fs tid nt =
        ((⟨st1.filename, some (l ++ [nt])⟩, fs), none)) := by
  refine ⟨rfl, ?_, ?_⟩
  · rcases hd : st.delete_transaction fs tid with ⟨⟨st1, fs1⟩, r⟩
    have hfs1 : fs1 = fs := by
      have h2 := delete_transaction_fs st fs tid
      rw [hd] at h2
      exact h2
    rw [hfs1] at hd
    unfold JsonFileDatabase.change_transaction
    rw [hd]
    cases r with
    | error e => rfl
    | ok t => exact add_transaction_fs st1 fs nt
  · intro st1 t l hd hl
    unfold JsonFileDatabase.change_transaction
    rw [hd]
    show st1.add_transaction fs nt = _
    unfold JsonFileDatabase.add_transaction
    rw [hl]

/-- Witness for C7: replacing the id-77 record by `sampleTx3` (which
itself carries id 77) in the two-record engine. -/
theorem C7_witness :
    dbOne.change_transaction fsSample ⟨77⟩ sampleTx3 =
      deleteThenAdd dbOne fsSample ⟨77⟩ sampleTx3 ∧
    dbOne.change_transaction fsSample ⟨77⟩ sampleTx3 =
      ((⟨some "db.json", some [sampleTx, sampleTx3]⟩, fsSample), none) :=
  ⟨(C7_change_transaction_spec dbOne fsSample ⟨77⟩ sampleTx3).1,
   (C7_change_transaction_spec dbOne fsSample ⟨77⟩ sampleTx3).2.2
     ⟨some "db.json", some [sampleTx]⟩ sampleTx2 [sampleTx] rfl rfl⟩

theorem comprehend_some_to_dict (ts : List Transaction) :
    comprehend (fun t => some t.to_dict) ts = some (ts.map Transaction.to_dict) := by
  induction ts with
  | nil => rfl
  | cons t ts ih => simp [comprehend, ih, List.map_cons]

theorem comprehend_from_dict_to_dict {ts : List Transaction}
    (hv : ∀ t ∈ ts, t.Valid) :
    comprehend Transaction.from_dict (ts.map Transaction.to_dict) = some ts := by
  induction ts with
  | nil => rfl
  | cons t ts ih =>
      have h1 := from_dict_to_dict (hv t (List.mem_cons_self t ts))
      have h2 := ih (fun u hu => hv u (List.mem_cons_of_mem t hu))
      simp [comprehend, List.map_cons, h1, h2]

/-- C4: on a connected engine and a collection of valid transactions,
`write ts true` succeeds and the working set afterwards is exactly `ts`
(re-read from the freshly written file); `write ts false` succeeds leaving
the engine state — hence `get_transactions` — exactly as before the call,
while a subsequent `read` returns `ts`, reflecting the disk rather than
the memory. -/
theorem C4_write_spec (st : JsonFileDatabase) (fs : FS) (f : String)
    (ts : List Transaction) (hf : st.filename = some f)
    (hv : ∀ t ∈ ts, t.Valid) :
    (st.write fs ts true).2 = none ∧
    ((st.write fs ts true).1.1).get_transactions = ts ∧
    (st.write fs ts false).1.1 = st ∧
    (st.write fs ts false).2 = none ∧
    JsonFileDatabase.read (st.write fs ts false).1.1
      (st.write fs ts false).1.2 = .ok ts := by
  have henc := comprehend_some_to_dict ts
  have hread : JsonFileDatabase.readFile f
      ((fs.set f .invalid).set f (.valid (ts.map Transaction.to_dict))) =
      .ok ts := by
    rw [readFile_valid (FS.get_set _ f _), comprehend_from_dict_to_dict hv]
  have hw1 : st.write fs ts true =
      (({ st with _transactions := some ts },
        (fs.set f .invalid).set f (.valid (ts.map Transaction.to_dict))),
        none) := by
    unfold JsonFileDatabase.write JsonFileDatabase.writeWith
    rw [hf]
    simp only [henc, hread, if_true]
  have hw0 : st.write fs ts false =
      ((st, (fs.set f .invalid).set f (.valid (ts.map Transaction.to_dict))),
        none) := by
    unfold JsonFileDatabase.write JsonFileDatabase.writeWith
    rw [hf]
    simp only [henc, Bool.false_eq_true, if_false]
  refine ⟨by rw [hw1], by rw [hw1]; rfl, by rw [hw0], by rw [hw0], ?_⟩
  rw [hw0]
  show JsonFileDatabase.read st _ = _
  unfold JsonFileDatabase.read
  rw [hf]
  exact hread

/-- Witness for C4 at the two-record collection on the sample engine. -/
theorem C4_witness :
    (dbEmptyWS.write fsSample [sampleTx, sampleTx2] true).2 = none ∧
    ((dbEmptyWS.write fsSample [sampleTx, sampleTx2] true).1.1).get_transactions =
      [sampleTx, sampleTx2] ∧
    (dbEmptyWS.write fsSample [sampleTx, sampleTx2] false).1.1 = dbEmptyWS ∧
    JsonFileDatabase.read
      (dbEmptyWS.write fsSample [sampleTx, sampleTx2] false).1.1
      (dbEmptyWS.write fsSample [sampleTx, sampleTx2] false).1.2 =
      .ok [sampleTx, sampleTx2] :=
  ⟨(C4_write_spec dbEmptyWS fsSample "db.json" [sampleTx, sampleTx2] rfl
      (by decide)).1,
   (C4_write_spec dbEmptyWS fsSample "db.json" [sampleTx, sampleTx2] rfl
      (by decide)).2.1,
   (C4_write_spec dbEmptyWS fsSample "db.json" [sampleTx, sampleTx2] rfl
      (by decide)).2.2.1,
   (C4_write_spec dbEmptyWS fsSample "db.json" [sampleTx, sampleTx2] rfl
      (by decide)).2.2.2.2⟩

/-- C9 — refuted by the code, which contradicts the spec's stated intent:
`open(filename, "w")` truncates the file BEFORE serialization runs, so a
failure while encoding the collection (here: the encoder fails on the
second record) destroys the prior on-disk content, leaving invalid
(truncated/partial) data. Before the call the file holds `priorData`;
after the failed call it holds `FileData.invalid ≠ some priorData`. -/
theorem C9_write_failure_truncates :
    fsC9.get "db.json" = some priorData ∧
    (JsonFileDatabase.writeWith failingEnc dbOne fsC9 [sampleTx, sampleTx2]
      true).2 = some .SerializationError ∧
    ((JsonFileDatabase.writeWith failingEnc dbOne fsC9 [sampleTx, sampleTx2]
      true).1.2).get "db.json" = some .invalid ∧
    (FileData.invalid : FileData) ≠ priorData := by
  exact ⟨rfl, rfl, rfl, by decide⟩

end Spec2Proof
